import Mathlib

/-!
# Verification of the bistro-scraper extraction pipeline

Shallow embedding of the Visual Sampling & Structured Extraction Pipeline of
`src/screenshot-scraper.js` (class `ScreenshotScraper`), together with theorems
settling the specification claims about it.

Strings rendered by the browser are modelled as `List Char`; the JavaScript
string operations used by the pipeline (`trim`, `includes`, `indexOf`,
`substring`, `toLowerCase`, `replace` with the concrete regular expressions
appearing in the source) are given explicit executable models below.  Each
regular expression of the source is compiled by hand to a scanning function;
the greedy quantifiers involved (`\d+`, `\s+`, `\s*`) are all followed by a
character of a disjoint class, so the backtracking regex semantics coincides
with maximal-munch scanning, which is what the models implement.
-/

/-- JS whitespace class `\s` restricted to the characters that can occur in
rendered `textContent` (space, tab, LF, CR, VT, FF, NBSP). -/
def jsWhitespace (c : Char) : Bool :=
  c = ' ' || c = '\t' || c = '\n' || c = '\r' ||
  c = Char.ofNat 11 || c = Char.ofNat 12 || c = Char.ofNat 160

/-- JS `String.prototype.toLowerCase` on a single character, for the ASCII
range and the uppercase Slovak letters that occur in the classifier patterns
(`Á Č Ď É Í Ĺ Ľ Ň Ó Ô Ŕ Š Ť Ú Ý Ž`).  All other characters are unchanged. -/
def jsToLowerChar (c : Char) : Char :=
  if 'A' ≤ c ∧ c ≤ 'Z' then Char.ofNat (c.toNat + 32)
  else if c = 'Á' then 'á' else if c = 'Č' then 'č' else if c = 'Ď' then 'ď'
  else if c = 'É' then 'é' else if c = 'Í' then 'í' else if c = 'Ĺ' then 'ĺ'
  else if c = 'Ľ' then 'ľ' else if c = 'Ň' then 'ň' else if c = 'Ó' then 'ó'
  else if c = 'Ô' then 'ô' else if c = 'Ŕ' then 'ŕ' else if c = 'Š' then 'š'
  else if c = 'Ť' then 'ť' else if c = 'Ú' then 'ú' else if c = 'Ý' then 'ý'
  else if c = 'Ž' then 'ž' else c

/-- JS `String.prototype.trim`. -/
def jsTrim (cs : List Char) : List Char :=
  ((cs.dropWhile jsWhitespace).reverse.dropWhile jsWhitespace).reverse

/-- Worker for `normSpace`: `inRun` records whether the previous character
belonged to a whitespace run whose replacement space was already emitted. -/
def normSpaceGo : Bool → List Char → List Char
  | _, [] => []
  | inRun, c :: cs =>
    if jsWhitespace c then
      if inRun then normSpaceGo true cs else ' ' :: normSpaceGo true cs
    else c :: normSpaceGo false cs

/-- JS `str.replace(/\s+/g, " ")`: every maximal whitespace run becomes a
single space. -/
def normSpace (cs : List Char) : List Char := normSpaceGo false cs

/-- JS `hay.includes(pat)` (contiguous substring test, case sensitive). -/
def containsList (hay pat : List Char) : Bool :=
  match hay with
  | [] => pat.isEmpty
  | c :: t => pat.isPrefixOf (c :: t) || containsList t pat

/-- Case-insensitive prefix test in the sense of a JS `/.../i` regex: both
sides are compared through `jsToLowerChar`.  Returns the remainder of the
input after the prefix. -/
def dropCasePre (pat cs : List Char) : Option (List Char) :=
  match pat, cs with
  | [], rest => some rest
  | _ :: _, [] => none
  | p :: ps, c :: cs' =>
    if jsToLowerChar c = jsToLowerChar p then dropCasePre ps cs' else none

/-- Case-insensitive substring test (`/pat/i.test(hay)` for a literal `pat`). -/
def ciContains (hay pat : List Char) : Bool :=
  match hay with
  | [] => pat.isEmpty
  | _ :: t => (dropCasePre pat hay).isSome || ciContains t pat

/-- Index of the leftmost case-insensitive occurrence of `pat` in `cs`. -/
def ciIndexOf (cs pat : List Char) : Option Nat :=
  match cs with
  | [] => if pat.isEmpty then some 0 else none
  | _ :: t =>
    if (dropCasePre pat cs).isSome then some 0
    else (ciIndexOf t pat).map (· + 1)

/-- JS `hay.indexOf(pat)`: character index of the first occurrence, `-1` when
there is none. -/
def jsIndexOf (hay pat : List Char) : Int :=
  match hay with
  | [] => if pat.isEmpty then 0 else -1
  | _ :: t =>
    if pat.isPrefixOf hay then 0
    else
      match jsIndexOf t pat with
      | -1 => -1
      | i => i + 1

/-- JS `str.substring(a, b)`: negative/overlong indices are clamped to
`[0, length]` and the endpoints are swapped when given out of order. -/
def jsSubstring (cs : List Char) (a b : Int) : List Char :=
  let n : Int := cs.length
  let a' := (min (max a 0) n).toNat
  let b' := (min (max b 0) n).toNat
  (cs.drop (min a' b')).take (max a' b' - min a' b')

/-- JS `str.substring(a)` (to the end of the string). -/
def jsSubstringFrom (cs : List Char) (a : Int) : List Char :=
  jsSubstring cs a cs.length

/-- The groups of one match of the money core `\d+,\d+\s*€`
(screenshot-scraper.js line 486: `cleanText.match(/(\d+,\d+\s*€)/)`). -/
structure PriceCore where
  d1 : List Char
  d2 : List Char
  ws : List Char
deriving DecidableEq, Repr

/-- Attempt to match `\d+,\d+\s*€` at the head of `cs`.  The greedy `\d+` and
`\s*` runs are maximal-munch (see the module comment). -/
def tryPriceCore (cs : List Char) : Option PriceCore :=
  let d1 := cs.takeWhile Char.isDigit
  let r1 := cs.dropWhile Char.isDigit
  if d1.isEmpty then none
  else
    match r1 with
    | ',' :: r2 =>
      let d2 := r2.takeWhile Char.isDigit
      let r3 := r2.dropWhile Char.isDigit
      if d2.isEmpty then none
      else
        let ws := r3.takeWhile jsWhitespace
        let r4 := r3.dropWhile jsWhitespace
        match r4 with
        | '€' :: _ => some ⟨d1, d2, ws⟩
        | _ => none
    | _ => none

/-- Leftmost match of `/(\d+,\d+\s*€)/` in `cs` (the regex scans start
positions left to right). -/
def findPriceCore : List Char → Option PriceCore
  | [] => none
  | c :: cs =>
    match tryPriceCore (c :: cs) with
    | some pc => some pc
    | none => findPriceCore cs

/-- The full text matched by the money core (the JS `priceMatch[0]`). -/
def coreMatched (pc : PriceCore) : List Char :=
  pc.d1 ++ ',' :: pc.d2 ++ pc.ws ++ ['€']

/-- The groups of one match of the price pattern `(od\s+)?(\d+,\d+)\s*€`
(screenshot-scraper.js line 504). -/
structure PriceQual where
  hasOd : Bool
  d1 : List Char
  d2 : List Char
deriving DecidableEq, Repr

/-- Attempt to match `(od\s+)?(\d+,\d+)\s*€` at the head of `cs`: the optional
group is tried first, and on failure the bare money core is tried at the same
position. -/
def tryPriceQualAt (cs : List Char) : Option PriceQual :=
  let bare : Option PriceQual := (tryPriceCore cs).map fun pc => ⟨false, pc.d1, pc.d2⟩
  match cs with
  | 'o' :: 'd' :: rest =>
    let ws := rest.takeWhile jsWhitespace
    if ws.isEmpty then bare
    else
      match tryPriceCore (rest.dropWhile jsWhitespace) with
      | some pc => some ⟨true, pc.d1, pc.d2⟩
      | none => bare
  | _ => bare

/-- Leftmost match of `/(od\s+)?(\d+,\d+)\s*€/` in `cs`. -/
def findPriceQual : List Char → Option PriceQual
  | [] => none
  | c :: cs =>
    match tryPriceQualAt (c :: cs) with
    | some pq => some pq
    | none => findPriceQual cs

/-- The price string the parser records: `` `od ${m[2]} €` `` or
`` `${m[2]} €` `` (lines 506-510). -/
def priceStr (pq : PriceQual) : List Char :=
  (if pq.hasOd then 'o' :: 'd' :: [' '] else []) ++ pq.d1 ++ ',' :: pq.d2 ++ [' ', '€']

/-! ## Literal strings used by the item parser (screenshot-scraper.js 471-519 / 662-719) -/

/-- "Denné menu" header marker. -/
def dennMenuMarker : List Char := "Denné menu".data
/-- "položiek" item-count marker. -/
def polozMarker : List Char := "položiek".data
/-- "Zobraz viac" show-more marker. -/
def zobrazMarker : List Char := "Zobraz viac".data
/-- The boilerplate "Samostatná polievka:" pattern alternative. -/
def samostatnaPat : List Char := "Samostatná polievka:".data
/-- The "Polievka " head of the "Polievka [0-9]:" pattern alternative. -/
def polievkaPat : List Char := "Polievka ".data
/-- The "Menu " head of the "Menu [0-9]:" pattern alternative. -/
def menuNPat : List Char := "Menu ".data
/-- The "popis jedla" description cutoff marker. -/
def popisPat : List Char := "popis jedla".data
/-- The "N/A" price placeholder. -/
def naStr : List Char := "N/A".data
/-- Default description in `extractItemsFromCurrentViewport` (line 519). -/
def dfltDescViewport : List Char := "Daily menu item".data
/-- Default description in `extractMenuFromScreenshot` (line 719). -/
def dfltDescScreenshot : List Char := "Denne menu item".data

/-- Match `pat` case-insensitively, then one digit, then `:` (the
`Polievka [0-9]:` / `Menu [0-9]:` alternatives); like the regex, the match is
followed by consuming the `\s*` run. -/
def tagNumColon (pat cs : List Char) : Option (List Char) :=
  (dropCasePre pat cs).bind fun r =>
    match r with
    | d :: ':' :: rest =>
      if d.isDigit then some (rest.dropWhile jsWhitespace) else none
    | _ => none

/-- JS `name.replace(/^(Samostatná polievka:\s*|Polievka [0-9]:\s*|Menu [0-9]:\s*)/i, "")`
(line 494): the three alternatives are tried in order at the start of the
string; the first that matches is removed. -/
def stripBoilerplate (cs : List Char) : List Char :=
  match dropCasePre samostatnaPat cs with
  | some rest => rest.dropWhile jsWhitespace
  | none =>
    match tagNumColon polievkaPat cs with
    | some rest => rest
    | none => (tagNumColon menuNPat cs).getD cs

/-- JS `name.replace(/od$/, "")` (line 498). -/
def stripEndOd (cs : List Char) : List Char :=
  if ['o', 'd'].isSuffixOf cs then cs.take (cs.length - 2) else cs

/-- JS `name.replace(/[,.]od$/, "")` (line 499). -/
def stripEndPunctOd (cs : List Char) : List Char :=
  if [',', 'o', 'd'].isSuffixOf cs || ['.', 'o', 'd'].isSuffixOf cs then
    cs.take (cs.length - 3)
  else cs

/-- JS `name.replace(/\.od$/, "")` (line 500). -/
def stripEndDotOd (cs : List Char) : List Char :=
  if ['.', 'o', 'd'].isSuffixOf cs then cs.take (cs.length - 3) else cs

/-- JS `name.replace(/[,.]$/, "")` (line 501). -/
def stripEndPunct (cs : List Char) : List Char :=
  if [','].isSuffixOf cs || ['.'].isSuffixOf cs then cs.take (cs.length - 1) else cs

/-- The suffix-cleanup chain applied to the raw name (lines 498-501, in source
order). -/
def cleanupNameSuffix (cs : List Char) : List Char :=
  stripEndPunct (stripEndDotOd (stripEndPunctOd (stripEndOd cs)))

/-- JS `s.replace(/pat.*$/i, "")` for a literal `pat`: cut from the leftmost
case-insensitive occurrence of `pat` to the end (the string holds no line
terminators after `normSpace`). -/
def cutCaseFrom (pat cs : List Char) : List Char :=
  match ciIndexOf cs pat with
  | some i => cs.take i
  | none => cs

/-- Index of the leftmost match of the money core `\d+,\d+\s*€`. -/
def findCoreIdx : List Char → Option Nat
  | [] => none
  | c :: cs =>
    if (tryPriceCore (c :: cs)).isSome then some 0
    else (findCoreIdx cs).map (· + 1)

/-- JS `s.replace(/\d+,\d+\s*€.*$/g, "")` (line 516): cut from the leftmost
money-core match to the end. -/
def cutFromCore (cs : List Char) : List Char :=
  match findCoreIdx cs with
  | some i => cs.take i
  | none => cs

/-- Attempt to match `\d+,\d+` followed by the literal `suf` at the head of
`cs` (the `\d+,\d+kg` and `\d+,\d+l` patterns of lines 517-518). -/
def tryNumSuf (suf cs : List Char) : Bool :=
  let d1 := cs.takeWhile Char.isDigit
  let r1 := cs.dropWhile Char.isDigit
  !d1.isEmpty &&
    match r1 with
    | ',' :: r2 =>
      let d2 := r2.takeWhile Char.isDigit
      let r3 := r2.dropWhile Char.isDigit
      !d2.isEmpty && suf.isPrefixOf r3
    | _ => false

/-- Index of the leftmost `\d+,\d+` followed by `suf`. -/
def findNumSufIdx (suf : List Char) : List Char → Option Nat
  | [] => none
  | c :: cs =>
    if tryNumSuf suf (c :: cs) then some 0
    else (findNumSufIdx suf cs).map (· + 1)

/-- JS `s.replace(/\d+,\d+SUF.*$/g, "")`: cut from the leftmost
number-plus-suffix match to the end. -/
def cutFromNumSuf (suf cs : List Char) : List Char :=
  match findNumSufIdx suf cs with
  | some i => cs.take i
  | none => cs

/-- The description cleanup of lines 512-519 / 712-719, applied to the text
after the first price match: strip from "popis jedla", from a secondary
price, from weight (`kg`) and volume (`l`) annotations; trim; default when
empty. -/
def descOf (dflt descBase : List Char) : List Char :=
  let d1 := cutCaseFrom popisPat descBase
  let d2 := cutFromCore d1
  let d3 := cutFromNumSuf ['k', 'g'] d2
  let d4 := cutFromNumSuf ['l'] d3
  let t := jsTrim d4
  if t.isEmpty then dflt else t

/-- The structured record the Item Parser emits for one list item.  The
`category`, `screenshot`, `source` and `viewport` fields of the JS object are
functions of the enclosing section and step, not of the item text, and are
not part of the per-item computation modelled here. -/
structure ParsedMenuItem where
  name : List Char
  price : List Char
  description : List Char
deriving DecidableEq, Repr

/-- The name computation of lines 491-502: text before the first price match,
trimmed, boilerplate prefix and connector suffixes stripped, trimmed again. -/
def cleanNameOf (cleanText : List Char) (pc : PriceCore) : List Char :=
  jsTrim (cleanupNameSuffix (stripBoilerplate
    (jsTrim (jsSubstring cleanText 0 (jsIndexOf cleanText (coreMatched pc))))))

/-- The price computation of lines 504-510: re-scan for the qualified price
pattern; `N/A` when it is absent. -/
def priceOf (cleanText : List Char) : List Char :=
  match findPriceQual cleanText with
  | some pq => priceStr pq
  | none => naStr

/-- The text after the first price match (lines 512-514), fed to the
description cleanup. -/
def descBaseOf (cleanText : List Char) (pc : PriceCore) : List Char :=
  jsSubstringFrom cleanText
    (jsIndexOf cleanText (coreMatched pc) + ((coreMatched pc).length : Int))

/-- The Item Parser on one visible list item's rendered text: lines 471-534 of
`extractItemsFromCurrentViewport` and, with a different minimum length and
default description, lines 662-739 of `extractMenuFromScreenshot`.  Returns
`none` when the candidate is skipped or rejected. -/
def parseItemCore (minLen : Nat) (dfltDesc : List Char) (rawText : List Char) :
    Option ParsedMenuItem :=
  let itemText := jsTrim rawText
  if itemText.length < minLen ∨ containsList itemText dennMenuMarker = true ∨
      containsList itemText polozMarker = true ∨
      containsList itemText zobrazMarker = true ∨
      containsList itemText ['€'] = false then
    none
  else if containsList itemText ['€'] = false then
    -- mirrors the redundant nested `if (itemText.includes("€"))`; unreachable
    none
  else
    let cleanText := jsTrim (normSpace itemText)
    match findPriceCore cleanText with
    | none => none
    | some pc =>
      let name := cleanNameOf cleanText pc
      if name ≠ [] ∧ 3 < name.length ∧ containsList name ['€'] = false then
        some ⟨name, priceOf cleanText, descOf dfltDesc (descBaseOf cleanText pc)⟩
      else
        none

/-- The Item Parser as invoked at each sampling step
(`extractItemsFromCurrentViewport`, minimum raw length 15). -/
def parseViewportItem : List Char → Option ParsedMenuItem :=
  parseItemCore 15 dfltDescViewport

/-- The Item Parser as invoked by the fallback pass
(`extractMenuFromScreenshot`, minimum raw length 5). -/
def parseScreenshotItem : List Char → Option ParsedMenuItem :=
  parseItemCore 5 dfltDescScreenshot

/-! ## Section Classifier (screenshot-scraper.js 243-280, 406-445, 576-620)

The classifier predicate appears three times in the source, character for
character identical except that the copy inside
`extractItemsFromCurrentViewport` (line 431) spells the Tuesday alternative of
the first daily-menu pattern `utorak` where the other two copies spell it
`utorok`.  `classifyWith` is the common body, parameterised by the weekday
list of that first pattern. -/

/-- The exclusion phrase set (lines 253-262 et al.). -/
def excludePatterns : List (List Char) :=
  ["obľúbené".data, "oblubene".data, "populárne".data, "popular".data,
   "favorites".data, "burger central".data, "domáca slovenská klasika".data,
   "hlavné jedlá".data]

/-- Slovak weekday alternatives (with the correct `utorok`). -/
def slovakDays : List (List Char) :=
  ["pondelok".data, "utorok".data, "streda".data, "štvrtok".data,
   "piatok".data, "sobota".data, "nedeľa".data]

/-- Slovak weekday alternatives as misspelled at line 431 (`utorak`). -/
def slovakDaysTypo : List (List Char) :=
  ["pondelok".data, "utorak".data, "streda".data, "štvrtok".data,
   "piatok".data, "sobota".data, "nedeľa".data]

/-- English weekday alternatives. -/
def englishDays : List (List Char) :=
  ["monday".data, "tuesday".data, "wednesday".data, "thursday".data,
   "friday".data, "saturday".data, "sunday".data]

/-- `denné menu ` (accented daily-menu phrase with trailing space). -/
def dailyPre1 : List Char := "denné menu ".data
/-- `daily menu ` (English daily-menu phrase with trailing space). -/
def dailyPre2 : List Char := "daily menu ".data
/-- `denne menu ` (unaccented daily-menu phrase with trailing space). -/
def dailyPre3 : List Char := "denne menu ".data
/-- `denné menu` (the bare phrase used with `includes`). -/
def dennLowerMarker : List Char := "denné menu".data

/-- `excludePatterns.some((pattern) => text.includes(pattern))` on the
lower-cased section text. -/
def hasExclusion (text : List Char) : Bool :=
  excludePatterns.any fun p => containsList text p

/-- `dailyMenuPatterns.some((pattern) => pattern.test(text))`: the three
`/daily-menu phrase + weekday/i` regexes, the first one taking its weekday
alternatives from `firstDays`. -/
def dailyMenuPatternsTest (firstDays : List (List Char)) (text : List Char) : Bool :=
  (firstDays.any fun d => ciContains text (dailyPre1 ++ d)) ||
  (englishDays.any fun d => ciContains text (dailyPre2 ++ d)) ||
  (slovakDays.any fun d => ciContains text (dailyPre3 ++ d))

/-- The classifier predicate applied to one candidate element's raw
`textContent`: empty text is rejected, the text is lower-cased, exclusion
phrases are checked first, then the daily-menu patterns, then the
`denné menu` + `položiek` combination (with its redundant exclusion
re-check, as in the source). -/
def classifyWith (firstDays : List (List Char)) (rawText : List Char) : Bool :=
  if rawText.isEmpty then false
  else
    let text := rawText.map jsToLowerChar
    if hasExclusion text then false
    else
      dailyMenuPatternsTest firstDays text ||
      (containsList text dennLowerMarker && containsList text polozMarker &&
        !hasExclusion text)

/-- The classifier as run per sampling step for best-viewport tracking
(`scrapeRestaurant`, lines 243-280). -/
def classifyStep : List Char → Bool := classifyWith slovakDays

/-- The classifier as run by the per-step item extraction
(`extractItemsFromCurrentViewport`, lines 406-445, with the `utorak`
misspelling). -/
def classifyViewportExtract : List Char → Bool := classifyWith slovakDaysTypo

/-- The classifier as run by the fallback pass
(`extractMenuFromScreenshot`, lines 576-620). -/
def classifyFallback : List Char → Bool := classifyWith slovakDays

/-! ## DOM snapshot model and section search -/

/-- One candidate DOM element at a fixed scroll offset: its full
`textContent` and the rendered text of those of its `li` descendants that
pass the visibility rectangle filter (geometry is abstracted into data). -/
structure DomElement where
  text : List Char
  visibleLis : List (List Char)
deriving DecidableEq

/-- The section search of all three call sites: for each candidate tag type
(`section, div, article, main, [role="region"]`, in order) take the first
element satisfying the classifier, drop the tag types with no match
(`.filter(Boolean)`), and return the first survivor.  `tagLists` holds the
document-order element list of each tag type. -/
def findDailyMenuSection (classify : List Char → Bool)
    (tagLists : List (List DomElement)) : Option DomElement :=
  (tagLists.filterMap fun els => els.find? fun el => classify el.text).head?

/-- `extractItemsFromCurrentViewport` (lines 401-544): find the daily-menu
section with the per-step classifier and run the Item Parser on each visible
`li`; no section means no items. -/
def extractItemsFromCurrentViewport (dom : List (List DomElement)) :
    List ParsedMenuItem :=
  match findDailyMenuSection classifyViewportExtract dom with
  | some sec => sec.visibleLis.filterMap parseViewportItem
  | none => []

/-- The DOM-extraction pass of `extractMenuFromScreenshot` (lines 561-788):
same shape with the fallback classifier and the fallback parser
parameters. -/
def extractMenuScreenshotPass (dom : List (List DomElement)) :
    List ParsedMenuItem :=
  match findDailyMenuSection classifyFallback dom with
  | some sec => sec.visibleLis.filterMap parseScreenshotItem
  | none => []

/-! ## Progressive Viewport Sampler (screenshot-scraper.js 203-355) -/

/-- `Math.ceil(totalHeight / viewportHeight)` (line 212), for a positive
viewport height. -/
def scrollStepsOf (totalHeight viewportHeight : Nat) : Nat :=
  (totalHeight + viewportHeight - 1) / viewportHeight

/-- The number of iterations of the sampling loop
`for (let step = 0; step < Math.min(scrollSteps, 3); step++)` (line 221). -/
def numSamplingSteps (totalHeight viewportHeight : Nat) : Nat :=
  min (scrollStepsOf totalHeight viewportHeight) 3

/-- The scroll offsets the sampling loop drives through:
`scrollY = step * viewportHeight` (line 222) for each attempted step. -/
def samplingOffsets (totalHeight viewportHeight : Nat) : List Nat :=
  (List.range (numSamplingSteps totalHeight viewportHeight)).map
    (· * viewportHeight)

/-! ## Best viewport and the fallback scroll anchor -/

/-- The per-step record retained as `this.bestDailyMenuViewport`
(lines 324-334). -/
structure BestViewport where
  visibleItems : Nat
  totalItems : Nat
  scrollY : Nat
  stepNumber : Nat
deriving DecidableEq, Repr

/-- The site name hard-coded at line 550. -/
def centralPubName : List Char := "Central Pub".data

/-- The scroll performed by `extractMenuFromScreenshot` before its extraction
pass (lines 550-559): `if (bestViewport && site.name === "Central Pub")`
scroll to `bestViewport.scrollY`, otherwise no scroll.  Returns the offset
scrolled to, `none` when no scroll happens. -/
def fallbackScrollTarget (siteName : List Char) (best : Option BestViewport) :
    Option Nat :=
  match best with
  | some bv => if siteName = centralPubName then some bv.scrollY else none
  | none => none

/-! ## Aggregator and Site Runner (screenshot-scraper.js 66-399, 908-964) -/

/-- What one site's page interaction produced when no exception escaped:
the item list of each sampling step (line 337-351) and the item list the
fallback pass would return (line 374). -/
structure ScrapeOutcome where
  stepItems : List (List ParsedMenuItem)
  fallbackItems : List ParsedMenuItem
deriving DecidableEq

/-- The result object of `scrapeRestaurant` (lines 382-390 success path,
391-398 catch path).  `none` models an absent (`undefined`) field. -/
structure ScrapeResult where
  success : Bool
  restaurant : List Char
  error : Option (List Char)
  menuData : Option (List ParsedMenuItem)
  itemCount : Option Nat
deriving DecidableEq

/-- `scrapeRestaurant` for one site, over the outcome of its page
interaction: an uncaught error is converted to a failure record with no
`menuData`/`itemCount` fields; otherwise the per-step items are concatenated
and, when that concatenation is empty, the fallback pass's items are used
(lines 371-390). -/
def scrapeRestaurant (siteName : List Char)
    (run : Except (List Char) ScrapeOutcome) : ScrapeResult :=
  match run with
  | .error msg =>
    { success := false, restaurant := siteName, error := some msg,
      menuData := none, itemCount := none }
  | .ok o =>
    let allItems := o.stepItems.flatten
    let menuData := if allItems.length > 0 then allItems else o.fallbackItems
    { success := true, restaurant := siteName, error := none,
      menuData := some menuData, itemCount := some menuData.length }

/-- One entry of the batch result list built by `scrapeAllSites`
(lines 925-941): `items` and `totalCount` are the (possibly `undefined`)
fields copied from the site result, `error` is added only on failure. -/
structure BatchEntry where
  siteName : List Char
  success : Bool
  items : Option (List ParsedMenuItem)
  totalCount : Option Nat
  error : Option (List Char)
deriving DecidableEq

/-- The `formattedResult` built from one `scrapeRestaurant` result
(lines 925-940). -/
def formatSiteResult (siteName : List Char) (r : ScrapeResult) : BatchEntry :=
  { siteName := siteName
    success := r.success
    items := r.menuData
    totalCount := r.itemCount
    error := if r.success then none else r.error }

/-- `scrapeAllSites` (lines 908-964) over the per-site page-interaction
outcomes: strictly sequential, one entry pushed per site.  (The `try/catch`
inside the loop is unreachable because `scrapeRestaurant` catches every
error itself.) -/
def scrapeAllSites (sites : List (List Char × Except (List Char) ScrapeOutcome)) :
    List BatchEntry :=
  sites.map fun s => formatSiteResult s.1 (scrapeRestaurant s.1 s.2)

/-! ## PageSession lifecycle -/

/-- Events of the browser-page lifecycle. -/
inductive SessionEvent where
  | createSession : Nat → SessionEvent
  | siteRun : List Char → Nat → SessionEvent
  | closeSession : Nat → SessionEvent
deriving DecidableEq, Repr

/-- The session lifecycle of one batch run, as the scheduler drives it
(`initialize` line 45 creates the single `this.page`; `scrapeAllSites`
lines 920-961 visits every site with that same page; `close` lines 831-843
closes it once at shutdown). -/
def scraperSessionTrace (sites : List (List Char)) : List SessionEvent :=
  SessionEvent.createSession 0 ::
    (sites.map (fun n => SessionEvent.siteRun n 0) ++ [SessionEvent.closeSession 0])

/-- The session id used by each site run of a trace, in order. -/
def sessionsUsed (tr : List SessionEvent) : List Nat :=
  tr.filterMap fun e =>
    match e with
    | SessionEvent.siteRun _ sid => some sid
    | _ => none

/-! ## Spec-side price patterns

These two definitions formalise the specification's wording, for comparison
with the code model: the claimed pattern `^(od )?\d+,\d{2} €$` and its
relaxation `^(od )?\d+,\d+ €$`. -/

/-- Full match of `\d+,\d{2} €` (`twoDec = true`) or `\d+,\d+ €`
(`twoDec = false`) against the whole string. -/
def bareMoneyFull (twoDec : Bool) (t : List Char) : Bool :=
  let d1 := t.takeWhile Char.isDigit
  let r1 := t.dropWhile Char.isDigit
  !d1.isEmpty &&
    match r1 with
    | ',' :: r2 =>
      let d2 := r2.takeWhile Char.isDigit
      let r3 := r2.dropWhile Char.isDigit
      !d2.isEmpty && (!twoDec || d2.length = 2) && r3 = [' ', '€']
    | _ => false

/-- The optional `(od )?` prefix: when the string starts with the three
characters `od `, the rest must match the bare pattern (a bare match is then
impossible since `o` is no digit); otherwise the whole string must. -/
def withOdPre (bare : List Char → Bool) (s : List Char) : Bool :=
  if s.take 3 = ['o', 'd', ' '] then bare (s.drop 3) else bare s

/-- Modelled from the spec: full match of the claimed price pattern
`^(od )?\d+,\d{2} €$`. -/
def specMoneyTwoDec : List Char → Bool :=
  withOdPre (bareMoneyFull true)

/-- Full match of the relaxed pattern `^(od )?\d+,\d+ €$` (any positive
number of decimal digits). -/
def moneyAnyDec : List Char → Bool :=
  withOdPre (bareMoneyFull false)

/-! ## Helper lemmas -/

theorem takeWhile_append_all (p : Char → Bool) (l1 : List Char) (c : Char)
    (l2 : List Char) (h1 : l1.all p = true) (hc : p c = false) :
    (l1 ++ c :: l2).takeWhile p = l1 := by
  induction l1 with
  | nil => simp [List.takeWhile_cons, hc]
  | cons a l ih =>
    simp only [List.all_cons, Bool.and_eq_true] at h1
    simp [List.takeWhile_cons, h1.1, ih h1.2]

theorem dropWhile_append_all (p : Char → Bool) (l1 : List Char) (c : Char)
    (l2 : List Char) (h1 : l1.all p = true) (hc : p c = false) :
    (l1 ++ c :: l2).dropWhile p = c :: l2 := by
  induction l1 with
  | nil => simp [List.dropWhile_cons, hc]
  | cons a l ih =>
    simp only [List.all_cons, Bool.and_eq_true] at h1
    simp [List.dropWhile_cons, h1.1, ih h1.2]

/-- Every match of the money core consists of nonempty digit groups. -/
theorem tryPriceCore_some (cs : List Char) (pc : PriceCore)
    (h : tryPriceCore cs = some pc) :
    pc.d1 ≠ [] ∧ pc.d1.all Char.isDigit = true ∧
    pc.d2 ≠ [] ∧ pc.d2.all Char.isDigit = true := by
  simp only [tryPriceCore] at h
  split at h
  · exact absurd h (by simp)
  · rename_i hne1
    split at h
    · rename_i r2 heq
      split at h
      · exact absurd h (by simp)
      · rename_i hne2
        split at h
        · rename_i heq2
          obtain rfl := Option.some.inj h
          refine ⟨?_, List.all_takeWhile, ?_, List.all_takeWhile⟩
          · simpa [List.isEmpty_iff] using hne1
          · simpa [List.isEmpty_iff] using hne2
        · exact absurd h (by simp)
    · exact absurd h (by simp)

theorem findPriceCore_some (cs : List Char) (pc : PriceCore)
    (h : findPriceCore cs = some pc) :
    pc.d1 ≠ [] ∧ pc.d1.all Char.isDigit = true ∧
    pc.d2 ≠ [] ∧ pc.d2.all Char.isDigit = true := by
  induction cs with
  | nil => simp [findPriceCore] at h
  | cons c t ih =>
    simp only [findPriceCore] at h
    split at h
    · rename_i pc' heq
      obtain rfl := Option.some.inj h
      exact tryPriceCore_some _ _ heq
    · exact ih h

theorem tryPriceQualAt_some (cs : List Char) (pq : PriceQual)
    (h : tryPriceQualAt cs = some pq) :
    pq.d1 ≠ [] ∧ pq.d1.all Char.isDigit = true ∧
    pq.d2 ≠ [] ∧ pq.d2.all Char.isDigit = true := by
  have bareCase : ∀ (cs' : List Char),
      (tryPriceCore cs').map
        (fun pc => (⟨false, pc.d1, pc.d2⟩ : PriceQual)) = some pq →
      pq.d1 ≠ [] ∧ pq.d1.all Char.isDigit = true ∧
      pq.d2 ≠ [] ∧ pq.d2.all Char.isDigit = true := by
    intro cs' hb
    rw [Option.map_eq_some'] at hb
    obtain ⟨pc, hpc, rfl⟩ := hb
    exact tryPriceCore_some _ _ hpc
  simp only [tryPriceQualAt] at h
  split at h
  · rename_i rest
    split at h
    · exact bareCase _ h
    · split at h
      · rename_i pc heq
        obtain rfl := Option.some.inj h
        exact tryPriceCore_some _ _ heq
      · exact bareCase _ h
  · exact bareCase _ h

theorem findPriceQual_some (cs : List Char) (pq : PriceQual)
    (h : findPriceQual cs = some pq) :
    pq.d1 ≠ [] ∧ pq.d1.all Char.isDigit = true ∧
    pq.d2 ≠ [] ∧ pq.d2.all Char.isDigit = true := by
  induction cs with
  | nil => simp [findPriceQual] at h
  | cons c t ih =>
    simp only [findPriceQual] at h
    split at h
    · rename_i pq' heq
      obtain rfl := Option.some.inj h
      exact tryPriceQualAt_some _ _ heq
    · exact ih h

theorem bareMoneyFull_concat (d1 d2 : List Char) (hd1 : d1 ≠ [])
    (ha1 : d1.all Char.isDigit = true) (hd2 : d2 ≠ [])
    (ha2 : d2.all Char.isDigit = true) :
    bareMoneyFull false (d1 ++ ',' :: (d2 ++ [' ', '€'])) = true := by
  have h1 := takeWhile_append_all Char.isDigit d1 ',' (d2 ++ [' ', '€']) ha1 (by decide)
  have h2 := dropWhile_append_all Char.isDigit d1 ',' (d2 ++ [' ', '€']) ha1 (by decide)
  have h3 : d2 ++ [' ', '€'] = d2 ++ ' ' :: ['€'] := rfl
  have h4 := takeWhile_append_all Char.isDigit d2 ' ' ['€'] ha2 (by decide)
  have h5 := dropWhile_append_all Char.isDigit d2 ' ' ['€'] ha2 (by decide)
  rw [h3] at h2 ⊢
  simp only [bareMoneyFull, h1, h2, h4, h5]
  simp [List.isEmpty_iff, hd1, hd2]

/-- The price string the parser constructs always matches the relaxed money
pattern `^(od )?\d+,\d+ €$`. -/
theorem moneyAnyDec_priceStr (pq : PriceQual) (hd1 : pq.d1 ≠ [])
    (ha1 : pq.d1.all Char.isDigit = true) (hd2 : pq.d2 ≠ [])
    (ha2 : pq.d2.all Char.isDigit = true) :
    moneyAnyDec (priceStr pq) = true := by
  have hshape : pq.d1 ++ ',' :: pq.d2 ++ [' ', '€'] =
      pq.d1 ++ ',' :: (pq.d2 ++ [' ', '€']) := by simp
  cases hOd : pq.hasOd with
  | true =>
    simp only [moneyAnyDec, withOdPre, priceStr, hOd, if_true, List.cons_append,
      List.nil_append]
    rw [if_pos (by simp)]
    simpa using bareMoneyFull_concat pq.d1 pq.d2 hd1 ha1 hd2 ha2
  | false =>
    obtain ⟨c, d1', hd⟩ : ∃ c d1', pq.d1 = c :: d1' := by
      cases hh : pq.d1 with
      | nil => exact absurd hh hd1
      | cons a l => exact ⟨a, l, rfl⟩
    have hcd : Char.isDigit c = true := by
      rw [hd] at ha1
      simp only [List.all_cons, Bool.and_eq_true] at ha1
      exact ha1.1
    simp only [moneyAnyDec, withOdPre, priceStr, hOd, if_false, List.nil_append, hd]
    rw [if_neg]
    · have := bareMoneyFull_concat pq.d1 pq.d2 hd1 ha1 hd2 ha2
      rw [hd] at this
      simpa using this
    · intro hcon
      have hco : c = 'o' := by
        have := congrArg (fun l => l.head?) hcon
        simpa [List.take] using this
      rw [hco] at hcd
      exact absurd hcd (by decide)

theorem mk_name (a b c : List Char) : (⟨a, b, c⟩ : ParsedMenuItem).name = a := rfl

theorem mk_price (a b c : List Char) : (⟨a, b, c⟩ : ParsedMenuItem).price = b := rfl

/-- The recorded price is either `N/A` or built from nonempty digit groups. -/
theorem priceOf_spec (ct : List Char) :
    priceOf ct = naStr ∨ ∃ pq : PriceQual,
      pq.d1 ≠ [] ∧ pq.d1.all Char.isDigit = true ∧
      pq.d2 ≠ [] ∧ pq.d2.all Char.isDigit = true ∧ priceOf ct = priceStr pq := by
  cases hq : findPriceQual ct with
  | none => left; simp [priceOf, hq]
  | some pq =>
    right
    obtain ⟨h1, h2, h3, h4⟩ := findPriceQual_some _ _ hq
    exact ⟨pq, h1, h2, h3, h4, by simp [priceOf, hq]⟩

/-- Shape of every record the Item Parser emits: the name passed the final
guard, and the price is `N/A` or a well-formed money string. -/
theorem parseItemCore_some (m : Nat) (d t : List Char) (r : ParsedMenuItem)
    (h : parseItemCore m d t = some r) :
    (r.name ≠ [] ∧ 3 < r.name.length ∧ containsList r.name ['€'] = false) ∧
    (r.price = naStr ∨ ∃ pq : PriceQual,
      pq.d1 ≠ [] ∧ pq.d1.all Char.isDigit = true ∧
      pq.d2 ≠ [] ∧ pq.d2.all Char.isDigit = true ∧ r.price = priceStr pq) := by
  simp only [parseItemCore] at h
  split at h
  · exact absurd h (by simp)
  split at h
  · exact absurd h (by simp)
  split at h
  · exact absurd h (by simp)
  rename_i pc heq
  split at h
  · rename_i hguard
    obtain rfl := Option.some.inj h
    simp only [mk_name, mk_price]
    exact ⟨hguard, priceOf_spec _⟩
  · exact absurd h (by simp)

/-! ## Claims C1-C3: the Item Parser -/

/-- C1 (amended): every price recorded by the Item Parser (per-step or
fallback pass) that is not `N/A` matches `^(od )?\d+,\d+ €$` — one or more
decimal digits, not exactly two as claimed. -/
theorem c1_theorem (t : List Char) (r : ParsedMenuItem)
    (h : parseViewportItem t = some r ∨ parseScreenshotItem t = some r)
    (hna : r.price ≠ naStr) : moneyAnyDec r.price = true := by
  have hp : r.price = naStr ∨ ∃ pq : PriceQual,
      pq.d1 ≠ [] ∧ pq.d1.all Char.isDigit = true ∧
      pq.d2 ≠ [] ∧ pq.d2.all Char.isDigit = true ∧ r.price = priceStr pq := by
    cases h with
    | inl h => exact (parseItemCore_some 15 dfltDescViewport t r h).2
    | inr h => exact (parseItemCore_some 5 dfltDescScreenshot t r h).2
  rcases hp with hNA | ⟨pq, h1, h2, h3, h4, hpr⟩
  · exact absurd hNA hna
  · rw [hpr]
    exact moneyAnyDec_priceStr pq h1 h2 h3 h4

/-- C1 witness: a concrete item parsed by the per-step Item Parser whose
price is not `N/A` and matches the relaxed pattern. -/
theorem c1_witness :
    (parseViewportItem ("Bryndzové halušky so slaninou 5,90 €".data) =
      some ⟨"Bryndzové halušky so slaninou".data, "5,90 €".data,
        "Daily menu item".data⟩) ∧
    ("5,90 €".data ≠ naStr) ∧
    moneyAnyDec ("5,90 €".data) = true :=
  ⟨by decide, by decide,
    c1_theorem ("Bryndzové halušky so slaninou 5,90 €".data)
      ⟨"Bryndzové halušky so slaninou".data, "5,90 €".data,
        "Daily menu item".data⟩
      (Or.inl (by decide)) (by decide)⟩

/-- C1 counterexample: the raw item text `Chicken curry with rice 7,5 € spicy`
is parsed into a record whose price `7,5 €` is not `N/A` and does not match
the claimed two-decimal pattern `^(od )?\d+,\d{2} €$`. -/
theorem c1_counterexample :
    (parseViewportItem ("Chicken curry with rice 7,5 € spicy".data) =
      some ⟨"Chicken curry with rice".data, "7,5 €".data, "spicy".data⟩) ∧
    ("7,5 €".data ≠ naStr) ∧
    specMoneyTwoDec ("7,5 €".data) = false :=
  ⟨by decide, by decide, by decide⟩

/-- C2: every record the Item Parser emits (per-step or fallback pass) has a
cleaned name longer than 3 characters that does not contain `€`. -/
theorem c2_theorem (t : List Char) (r : ParsedMenuItem)
    (h : parseViewportItem t = some r ∨ parseScreenshotItem t = some r) :
    3 < r.name.length ∧ containsList r.name ['€'] = false := by
  cases h with
  | inl h =>
    have hs := parseItemCore_some 15 dfltDescViewport t r h
    exact ⟨hs.1.2.1, hs.1.2.2⟩
  | inr h =>
    have hs := parseItemCore_some 5 dfltDescScreenshot t r h
    exact ⟨hs.1.2.1, hs.1.2.2⟩

/-- C2 witness: a concrete emitted item with name length above 3 and no
currency symbol. -/
theorem c2_witness :
    (parseViewportItem ("Vyprážaný syr so zemiakmi 4,90 €".data) =
      some ⟨"Vyprážaný syr so zemiakmi".data, "4,90 €".data,
        "Daily menu item".data⟩) ∧
    (3 < ("Vyprážaný syr so zemiakmi".data).length ∧
      containsList ("Vyprážaný syr so zemiakmi".data) ['€'] = false) :=
  ⟨by decide,
    c2_theorem ("Vyprážaný syr so zemiakmi 4,90 €".data)
      ⟨"Vyprážaný syr so zemiakmi".data, "4,90 €".data, "Daily menu item".data⟩
      (Or.inl (by decide))⟩

/-- C3 counterexample: on the raw text `Soup 1: Goulash 3,50 € with bread`
the Item Parser keeps the English prefix `Soup 1:` in the name — the claimed
record with name `Goulash` is not produced. -/
theorem c3_counterexample :
    (parseViewportItem ("Soup 1: Goulash 3,50 € with bread".data) =
      some ⟨"Soup 1: Goulash".data, "3,50 €".data, "with bread".data⟩) ∧
    ("Soup 1: Goulash".data ≠ "Goulash".data) :=
  ⟨by decide, by decide⟩

/-- C3 (amended): on `Soup 1: Goulash 3,50 € with bread` the parser produces
`{name: "Soup 1: Goulash", price: "3,50 €", description: "with bread"}` — the
strip list holds only `Samostatná polievka:`, `Polievka N:` and `Menu N:`,
so the English `Soup 1:` stays in the name, while `Menu 1:` is stripped. -/
theorem c3_theorem :
    (parseViewportItem ("Soup 1: Goulash 3,50 € with bread".data) =
      some ⟨"Soup 1: Goulash".data, "3,50 €".data, "with bread".data⟩) ∧
    (parseViewportItem ("Menu 1: Goulash 3,50 € with bread".data) =
      some ⟨"Goulash".data, "3,50 €".data, "with bread".data⟩) :=
  ⟨by decide, by decide⟩

/-! ## Claim C4: the Progressive Viewport Sampler step bound -/

/-- The integer ceiling division of the sampler equals the rational ceiling
`Math.ceil` computes. -/
theorem scrollStepsOf_eq_ceil (t v : Nat) (hv : 0 < v) :
    (scrollStepsOf t v : ℤ) = ⌈(t : ℚ) / (v : ℚ)⌉ := by
  obtain ⟨w, rfl⟩ : ∃ w, v = w + 1 := ⟨v - 1, by omega⟩
  have harg : t + (w + 1) - 1 = t + w := by omega
  have hvQ : (0 : ℚ) < (w : ℚ) + 1 := by positivity
  rw [scrollStepsOf, harg, eq_comm]
  set s := (t + w) / (w + 1) with hs
  have h1 : (w + 1) * s + (t + w) % (w + 1) = t + w := Nat.div_add_mod _ _
  have h2 : (t + w) % (w + 1) < w + 1 := Nat.mod_lt _ (by omega)
  set m := (t + w) % (w + 1)
  have hQ1 : ((w : ℚ) + 1) * (s : ℚ) + (m : ℚ) = (t : ℚ) + (w : ℚ) := by
    exact_mod_cast h1
  have hQ0 : (0 : ℚ) ≤ (m : ℚ) := by positivity
  have h2Q : (m : ℚ) ≤ (w : ℚ) := by
    exact_mod_cast Nat.lt_succ_iff.mp h2
  rw [Int.ceil_eq_iff]
  constructor
  · push_cast
    have hkey : ((s : ℚ) - 1) * ((w : ℚ) + 1) < (t : ℚ) := by nlinarith [hQ1, hQ0]
    have hd := (lt_div_iff₀ hvQ).mpr hkey
    linarith
  · push_cast
    rw [div_le_iff₀ hvQ]
    nlinarith [hQ1, h2Q]

/-- C4: for every page the sampler attempts exactly
`min(ceil(totalHeight / viewportHeight), 3)` steps, and step `i` is scrolled
to offset `i * viewportHeight`. -/
theorem c4_theorem (t v : Nat) (hv : 0 < v) :
    (numSamplingSteps t v : ℤ) = min ⌈(t : ℚ) / (v : ℚ)⌉ 3 ∧
    ∀ i, i < numSamplingSteps t v → (samplingOffsets t v).getD i 0 = i * v := by
  constructor
  · rw [numSamplingSteps]
    push_cast
    rw [scrollStepsOf_eq_ceil t v hv]
  · intro i hi
    rw [samplingOffsets, List.getD_eq_getElem?_getD, List.getElem?_map,
      List.getElem?_range hi]
    simp

/-- C4 witness: the page of height 3500 with viewport 1024 gets exactly 3
sampling steps (never 4), at offsets 0, 1024 and 2048. -/
theorem c4_witness :
    0 < 1024 ∧ numSamplingSteps 3500 1024 = 3 ∧
    samplingOffsets 3500 1024 = [0, 1024, 2048] ∧
    (numSamplingSteps 3500 1024 : ℤ) = min ⌈(3500 : ℚ) / (1024 : ℚ)⌉ 3 ∧
    (samplingOffsets 3500 1024).getD 2 0 = 2 * 1024 :=
  ⟨by decide, by decide, by decide,
    (c4_theorem 3500 1024 (by decide)).1,
    (c4_theorem 3500 1024 (by decide)).2 2 (by decide)⟩

/-! ## Claim C5: exclusion precedence in the Section Classifier -/

/-- C5: whenever the lower-cased text of a candidate section contains an
exclusion phrase, every copy of the classifier rejects it, whether or not an
inclusion pattern also matches. -/
theorem c5_theorem (raw : List Char)
    (h : hasExclusion (raw.map jsToLowerChar) = true) :
    classifyStep raw = false ∧ classifyViewportExtract raw = false ∧
    classifyFallback raw = false := by
  have key : ∀ fd, classifyWith fd raw = false := by
    intro fd
    simp [classifyWith, h]
  exact ⟨key _, key _, key _⟩

/-- C5 witness: the section text of Scenario D, containing both `Obľúbené`
and `Denné menu Monday`, is rejected by the per-step classifier. -/
theorem c5_witness :
    hasExclusion (("Obľúbené Denné menu Monday".data).map jsToLowerChar) = true ∧
    classifyStep ("Obľúbené Denné menu Monday".data) = false :=
  ⟨by decide, (c5_theorem ("Obľúbené Denné menu Monday".data) (by decide)).1⟩

/-! ## Claim C9: the two classifier invocations are not equivalent -/

/-- C9: the section text `denné menu utorok` is accepted by the per-step
classifier and by the fallback classifier, but rejected by the classifier
inside `extractItemsFromCurrentViewport`, whose first pattern misspells the
weekday as `utorak` (line 431): the two invocations of one sampling step do
not accept the same set of section texts. -/
theorem c9_theorem :
    classifyStep ("denné menu utorok".data) = true ∧
    classifyFallback ("denné menu utorok".data) = true ∧
    classifyViewportExtract ("denné menu utorok".data) = false :=
  ⟨by decide, by decide, by decide⟩

/-! ## Claim C7: the fallback scroll anchor -/

/-- C7 counterexample: for a site that is not named `Central Pub`, the
fallback pass does not scroll to the recorded best viewport even though one
exists (the code gates the scroll on `site.name === "Central Pub"`). -/
theorem c7_counterexample :
    fallbackScrollTarget ("Bistro Fit".data)
      (some ⟨7, 10, 1024, 2⟩) = none ∧
    some ((⟨7, 10, 1024, 2⟩ : BestViewport).scrollY) = some (1024 : Nat) :=
  ⟨by decide, by decide⟩

/-- C7 (amended): when a BestViewport exists the fallback pass is scrolled to
its offset only for the site named `Central Pub`; for every other site, and
whenever no BestViewport exists, no scroll is performed. -/
theorem c7_theorem (siteName : List Char) (bv : BestViewport)
    (hn : siteName ≠ centralPubName) :
    fallbackScrollTarget centralPubName (some bv) = some bv.scrollY ∧
    fallbackScrollTarget siteName (some bv) = none ∧
    fallbackScrollTarget siteName none = none := by
  refine ⟨?_, ?_, rfl⟩
  · simp [fallbackScrollTarget]
  · simp [fallbackScrollTarget, hn]

/-- C7 witness: concrete instance of the amended behaviour. -/
theorem c7_witness :
    ("Bistro Fit".data ≠ centralPubName) ∧
    fallbackScrollTarget ("Bistro Fit".data) (some ⟨7, 10, 1024, 2⟩) = none :=
  ⟨by decide,
    (c7_theorem ("Bistro Fit".data) ⟨7, 10, 1024, 2⟩ (by decide)).2.1⟩

/-! ## Claim C6: the Site Runner error boundary -/

/-- C6 counterexample: a navigation timeout produces a failure record, but
that record carries no items field at all (`menuData` is absent), not the
claimed empty items list. -/
theorem c6_counterexample :
    (scrapeRestaurant ("Bistro Fit".data)
      (Except.error ("NavigationTimeout".data))).success = false ∧
    (scrapeRestaurant ("Bistro Fit".data)
      (Except.error ("NavigationTimeout".data))).menuData ≠ some [] ∧
    (scrapeRestaurant ("Bistro Fit".data)
      (Except.error ("NavigationTimeout".data))).menuData = none :=
  ⟨by decide, by decide, by decide⟩

/-- C6 (amended): an uncaught error in a site run is converted at the Site
Runner boundary into a record with `success = false` and the error message —
with no items field (`menuData`/`itemCount` are absent, not `[]`) — and the
batch still processes every other site: the batch result decomposes around
the failed site, whose entry reports the failure. -/
theorem c6_theorem (pre post : List (List Char × Except (List Char) ScrapeOutcome))
    (siteName msg : List Char) :
    scrapeAllSites (pre ++ (siteName, Except.error msg) :: post) =
      scrapeAllSites pre ++
        formatSiteResult siteName (scrapeRestaurant siteName (Except.error msg)) ::
          scrapeAllSites post ∧
    (scrapeRestaurant siteName (Except.error msg)).success = false ∧
    (scrapeRestaurant siteName (Except.error msg)).error = some msg ∧
    (scrapeRestaurant siteName (Except.error msg)).menuData = none ∧
    (formatSiteResult siteName
      (scrapeRestaurant siteName (Except.error msg))).success = false ∧
    (formatSiteResult siteName
      (scrapeRestaurant siteName (Except.error msg))).error = some msg ∧
    (formatSiteResult siteName
      (scrapeRestaurant siteName (Except.error msg))).items = none := by
  refine ⟨?_, rfl, rfl, rfl, ?_, ?_, rfl⟩
  · simp [scrapeAllSites]
  · simp [formatSiteResult, scrapeRestaurant]
  · simp [formatSiteResult, scrapeRestaurant]

/-! ## Claim C8: the empty terminal state -/

/-- When no candidate element satisfies the classifier, the section search
finds nothing. -/
theorem findDailyMenuSection_none (classify : List Char → Bool)
    (tagLists : List (List DomElement))
    (h : ∀ tl ∈ tagLists, ∀ el ∈ tl, classify el.text = false) :
    findDailyMenuSection classify tagLists = none := by
  unfold findDailyMenuSection
  have hnil : (tagLists.filterMap fun els => els.find? fun el => classify el.text) = [] := by
    rw [List.filterMap_eq_nil_iff]
    intro els hels
    rw [List.find?_eq_none]
    intro el hel
    simp [h els hels el hel]
  rw [hnil]
  rfl

theorem extractViewport_of_no_section (dom : List (List DomElement))
    (h : ∀ tl ∈ dom, ∀ el ∈ tl, classifyViewportExtract el.text = false) :
    extractItemsFromCurrentViewport dom = [] := by
  unfold extractItemsFromCurrentViewport
  rw [findDailyMenuSection_none _ _ h]

theorem extractScreenshot_of_no_section (dom : List (List DomElement))
    (h : ∀ tl ∈ dom, ∀ el ∈ tl, classifyFallback el.text = false) :
    extractMenuScreenshotPass dom = [] := by
  unfold extractMenuScreenshotPass
  rw [findDailyMenuSection_none _ _ h]

/-- C8: when no section matches the classifier at any sampled step and the
fallback pass also matches none (and no exception is thrown), the site result
has `success = true` and an empty items list — the "no menu available"
terminal state, not an error. -/
theorem c8_theorem (siteName : List Char)
    (stepDoms : List (List (List DomElement))) (fbDom : List (List DomElement))
    (h1 : ∀ d ∈ stepDoms, ∀ tl ∈ d, ∀ el ∈ tl, classifyViewportExtract el.text = false)
    (h2 : ∀ tl ∈ fbDom, ∀ el ∈ tl, classifyFallback el.text = false) :
    (scrapeRestaurant siteName (Except.ok
      ⟨stepDoms.map extractItemsFromCurrentViewport,
        extractMenuScreenshotPass fbDom⟩)).success = true ∧
    (scrapeRestaurant siteName (Except.ok
      ⟨stepDoms.map extractItemsFromCurrentViewport,
        extractMenuScreenshotPass fbDom⟩)).menuData = some [] := by
  have hflat : (stepDoms.map extractItemsFromCurrentViewport).flatten = [] := by
    rw [List.flatten_eq_nil_iff]
    intro l hl
    rw [List.mem_map] at hl
    obtain ⟨d, hd, rfl⟩ := hl
    exact extractViewport_of_no_section d (h1 d hd)
  have hfb : extractMenuScreenshotPass fbDom = [] :=
    extractScreenshot_of_no_section fbDom h2
  constructor
  · rfl
  · simp [scrapeRestaurant, hflat, hfb]

/-- C8 witness: a step snapshot holding only an excluded section and an empty
fallback snapshot yield `success = true` with zero items. -/
theorem c8_witness :
    (∀ d ∈ [[[(⟨"hlavné jedlá burgre".data, ["Burger 5,90 € klasika".data]⟩ : DomElement)]]],
      ∀ tl ∈ d, ∀ el ∈ tl, classifyViewportExtract el.text = false) ∧
    (∀ tl ∈ ([] : List (List DomElement)), ∀ el ∈ tl, classifyFallback el.text = false) ∧
    ((scrapeRestaurant ("Bistro Fit".data) (Except.ok
      ⟨[[[(⟨"hlavné jedlá burgre".data, ["Burger 5,90 € klasika".data]⟩ : DomElement)]]].map
          extractItemsFromCurrentViewport,
        extractMenuScreenshotPass ([] : List (List DomElement))⟩)).success = true ∧
     (scrapeRestaurant ("Bistro Fit".data) (Except.ok
      ⟨[[[(⟨"hlavné jedlá burgre".data, ["Burger 5,90 € klasika".data]⟩ : DomElement)]]].map
          extractItemsFromCurrentViewport,
        extractMenuScreenshotPass ([] : List (List DomElement))⟩)).menuData = some []) :=
  ⟨by decide, by decide,
    c8_theorem ("Bistro Fit".data)
      [[[(⟨"hlavné jedlá burgre".data, ["Burger 5,90 € klasika".data]⟩ : DomElement)]]]
      ([] : List (List DomElement)) (by decide) (by decide)⟩

/-! ## Claim C10: the PageSession lifecycle -/

/-- C10 counterexample: in a batch over two sites both site runs use the one
session created at initialization, and the only close event comes after the
whole batch — the session is shared across sites and is not released at the
end of the first site's run. -/
theorem c10_counterexample :
    scraperSessionTrace [("Central Pub".data), ("Bistro Fit".data)] =
      [SessionEvent.createSession 0,
       SessionEvent.siteRun ("Central Pub".data) 0,
       SessionEvent.siteRun ("Bistro Fit".data) 0,
       SessionEvent.closeSession 0] ∧
    sessionsUsed (scraperSessionTrace [("Central Pub".data), ("Bistro Fit".data)]) =
      [0, 0] :=
  ⟨by decide, by decide⟩

/-- C10 (amended): every site run of a batch uses the single PageSession
(id 0) created at initialization, and exactly one close event exists, at the
very end of the trace — the session is reused across sites and released only
when the scraper shuts down. -/
theorem c10_theorem (sites : List (List Char)) :
    sessionsUsed (scraperSessionTrace sites) = List.replicate sites.length 0 ∧
    (scraperSessionTrace sites).count (SessionEvent.closeSession 0) = 1 ∧
    (scraperSessionTrace sites).getLast? = some (SessionEvent.closeSession 0) := by
  refine ⟨?_, ?_, ?_⟩
  · unfold scraperSessionTrace sessionsUsed
    rw [List.filterMap_cons]
    simp only [List.filterMap_append, List.filterMap_map]
    induction sites with
    | nil => rfl
    | cons s ss ih =>
      simpa [List.replicate_succ] using ih
  · unfold scraperSessionTrace
    rw [List.count_cons, List.count_append]
    have hz : (sites.map fun n => SessionEvent.siteRun n 0).count
        (SessionEvent.closeSession 0) = 0 := by
      rw [List.count_eq_zero]
      simp
    simp [hz]
  · unfold scraperSessionTrace
    rw [show (SessionEvent.createSession 0 ::
        ((sites.map fun n => SessionEvent.siteRun n 0) ++
          [SessionEvent.closeSession 0])) =
      (SessionEvent.createSession 0 ::
        (sites.map fun n => SessionEvent.siteRun n 0)) ++
          [SessionEvent.closeSession 0] from rfl]
    exact List.getLast?_concat _
